import Mathlib

/-!
# Verification of the pivot relational-backend core

Shallow embedding of the repository's schema model (`dal` package:
`Collection`, `Field`, `Record`, `RecordSet`, `SchemaDelta`, `Collection.Diff`),
the indexer pagination helper (`PopulateRecordSetPageDetails`) and the
relational backend engine (`backends/sql.go`: `SqlBackend` with `Insert`,
`Update`, `Delete`, `Exists`, `CreateCollection`, `GetCollection`,
`ListCollections`, the schema cache and its refresh path).

External collaborators that are not part of the repository (the SQL driver,
the filter/statement generators, the per-dialect introspection functions) are
modelled as oracles collected in an `Env` structure: each fallible step the Go
code takes through them is one oracle field, so every error branch of the
source is reachable in the model.  Machine integers are modelled as `Int`
(the Go code uses `int`/`int64`; no claim exercises overflow) and Go's
`math.Ceil(float64(a)/float64(b))` as the exact rational ceiling, which
coincides with the float computation on the magnitudes at issue.
-/

namespace Pivot

/-- A dynamic value (Go `interface{}` as it flows through records,
statement inputs and schema deltas). -/
inductive Value where
  | vStr (s : String)
  | vInt (n : Int)
  | vBool (b : Bool)
deriving DecidableEq, Repr

/-- Go `dal.Type` is a string-backed type (`type Type string`). -/
abbrev FType := String

/-- `dal.StringType`. -/
def StringType : FType := "str"

/-- `dal.IntType`. -/
def IntType : FType := "int"

/-- `dal.DefaultIdentityField` (src/unnamed/part_001:20). -/
def DefaultIdentityField : String := "id"

/-- `dal.DefaultIdentityFieldType` (src/unnamed/part_001:21). -/
def DefaultIdentityFieldType : FType := IntType

/-- `dal.Field`: column descriptor.  `Field.ConvertValue` (the per-type
conversion rule) lives in a dal source file that is not under src/, so it is
carried as an opaque per-field function `convert`; the claims only exercise
it through `Collection.ConvertValue` (which is under src/). -/
structure Field where
  Name : String
  Ftype : FType
  Length : Nat
  Required : Bool
  Unique : Bool
  Identity : Bool
  Key : Bool
  DefaultValue : Option Value
  convert : Value → Except String Value

/-- `dal.Collection` (src/unnamed/part_001:23). -/
structure Collection where
  Name : String
  Fields : List Field
  IdentityField : String
  IdentityFieldType : FType

/-- `Collection.GetField` (src/unnamed/part_001:59): first field whose
name matches, scanning in declared order. -/
def Collection.GetField (self : Collection) (name : String) : Option Field :=
  self.Fields.find? (fun f => f.Name == name)

/-- `Collection.ConvertValue` (src/unnamed/part_001:69): delegate to the
field's conversion, or fail on an unknown field name. -/
def Collection.ConvertValue (self : Collection) (name : String) (value : Value) :
    Except String Value :=
  match self.GetField name with
  | some f => f.convert value
  | none => .error ("Unknown field " ++ name)

/-- `dal.SchemaDelta.Type`. -/
inductive DeltaType where
  | CollectionDelta
  | FieldDelta
deriving DecidableEq, Repr

/-- `dal.SchemaDelta`: one structural difference.  `Parameter` is `""` and
`Desired`/`Actual` are `none` when the Go code leaves them unset. -/
structure SchemaDelta where
  Dtype : DeltaType
  Message : String
  Name : String
  Parameter : String
  Desired : Option Value
  Actual : Option Value
deriving DecidableEq, Repr

/-- Modelled from the spec: `dal.Field.Diff` is not under src/ (only its
caller `Collection.Diff` is).  Per the spec (§4.1) the field-level diff
"compares type, length, nullability, uniqueness, default value", emitting one
field-level delta per differing attribute and nothing when none differ. -/
def Field.Diff (self other : Field) : List SchemaDelta :=
  (if self.Ftype ≠ other.Ftype then
    [⟨.FieldDelta, "does not match", self.Name, "Type",
      some (.vStr self.Ftype), some (.vStr other.Ftype)⟩] else [])
  ++ (if self.Length ≠ other.Length then
    [⟨.FieldDelta, "does not match", self.Name, "Length",
      some (.vInt self.Length), some (.vInt other.Length)⟩] else [])
  ++ (if self.Required ≠ other.Required then
    [⟨.FieldDelta, "does not match", self.Name, "Required",
      some (.vBool self.Required), some (.vBool other.Required)⟩] else [])
  ++ (if self.Unique ≠ other.Unique then
    [⟨.FieldDelta, "does not match", self.Name, "Unique",
      some (.vBool self.Unique), some (.vBool other.Unique)⟩] else [])
  ++ (if self.DefaultValue ≠ other.DefaultValue then
    [⟨.FieldDelta, "does not match", self.Name, "DefaultValue",
      self.DefaultValue, other.DefaultValue⟩] else [])

/-- `Collection.Diff` (src/unnamed/part_001:175), translated statement by
statement: the three collection-level checks append in order (name, identity
field name, identity field type), then the loop over `self.Fields` appends
either the pairwise field diff or a single "is missing" delta.  The Go
function returns `nil` for an empty slice; both are `[]` here. -/
def Collection.Diff (self actual : Collection) : List SchemaDelta :=
  let differences : List SchemaDelta := []
  let differences := if self.Name ≠ actual.Name then
    differences ++ [⟨.CollectionDelta, "names do not match", self.Name, "",
      some (.vStr self.Name), some (.vStr actual.Name)⟩] else differences
  let differences := if self.IdentityField ≠ actual.IdentityField then
    differences ++ [⟨.CollectionDelta, "does not match", self.Name, "IdentityField",
      some (.vStr self.IdentityField), some (.vStr actual.IdentityField)⟩] else differences
  let differences := if self.IdentityFieldType ≠ actual.IdentityFieldType then
    differences ++ [⟨.CollectionDelta, "does not match", self.Name, "IdentityFieldType",
      some (.vStr self.IdentityFieldType), some (.vStr actual.IdentityFieldType)⟩]
    else differences
  self.Fields.foldl (fun acc myField =>
    match actual.GetField myField.Name with
    | some theirField => acc ++ myField.Diff theirField
    | none => acc ++ [⟨.FieldDelta, "is missing", myField.Name, "", none, none⟩])
    differences

/-- The Go `Diff` receives both collections by pointer and never assigns
through either; a state-passing translation therefore returns both inputs
alongside the deltas. -/
def Collection.DiffST (self actual : Collection) :
    List SchemaDelta × Collection × Collection :=
  (self.Diff actual, self, actual)

/-- `dal.Record` as the backend uses it: an identity value and a named-value
mapping (a Go map; modelled as an association list).  The backend compares
`record.ID` against the empty string (sql.go:170, sql.go:307), so the
identity is carried as a `String` with `""` standing for "no identity". -/
structure Record where
  ID : String
  Fields : List (String × Value)

/-- `dal.RecordSet`: ordered records plus pagination metadata
(`ResultCount` is Go `int64`, the rest `int`; all modelled as `Int`). -/
structure RecordSet where
  Records : List Record
  ResultCount : Int
  TotalPages : Int
  RecordsPerPage : Int
  Page : Int

/-- `backends.IndexPage` (src/unnamed/part_000:14). -/
structure IndexPage where
  Page : Int
  TotalPages : Int
  Limit : Int
  Offset : Int
  TotalResults : Int

/-- The slice of `filter.Filter` the pagination helper reads (`Limit`,
`Offset`; Go `int`). -/
structure Filter where
  Limit : Int
  Offset : Int

/-- Go `int(math.Ceil(float64(a) / float64(b)))` in exact arithmetic: the
ceiling of the rational quotient.  (The float computation is exact at every
magnitude the claims exercise.) -/
def mathCeilDiv (a b : Int) : Int := Int.ceil ((a : ℚ) / (b : ℚ))

/-- `PopulateRecordSetPageDetails` (src/unnamed/part_000:48), statement by
statement: `ResultCount` is overwritten from the page; `TotalPages` is taken
from the page when positive, else computed as `ceil(ResultCount / f.Limit)`
when `ResultCount ≥ 0 ∧ f.Limit > 0`; `RecordsPerPage` defaults to the
page's `Limit` when zero; `Page` is `ceil((f.Offset+1) / page.Limit)` when
`page.Limit > 0`. -/
def PopulateRecordSetPageDetails (recordset : RecordSet) (f : Filter)
    (page : IndexPage) : RecordSet :=
  let recordset := { recordset with ResultCount := page.TotalResults }
  let recordset :=
    if page.TotalPages > 0 then
      { recordset with TotalPages := page.TotalPages }
    else if recordset.ResultCount ≥ 0 ∧ f.Limit > 0 then
      { recordset with TotalPages := mathCeilDiv recordset.ResultCount f.Limit }
    else recordset
  let recordset :=
    if recordset.RecordsPerPage = 0 then
      { recordset with RecordsPerPage := page.Limit }
    else recordset
  let recordset :=
    if page.Limit > 0 then
      { recordset with Page := mathCeilDiv (f.Offset + 1) page.Limit }
    else recordset
  recordset

/-! ## The relational backend engine (src/backends/sql.go)

The `sql.Tx` transaction discipline of `database/sql` is embedded by letting
each write operation accumulate the statements it executes inside the
transaction and apply them to the durable statement log only at `Commit`;
a return through a `tx.Rollback()` path discards them, leaving the log as it
was.  Every step the Go code takes through an external collaborator (driver,
filter package, statement generator, introspection function) is one oracle
field of `Env`. -/

/-- The operation kind `generators.SqlStatement` selects. -/
inductive StmtKind where
  | select
  | insert
  | update
  | delete
deriving DecidableEq, Repr

/-- The filter handed to `filter.Render`: `filter.Null` for inserts, an
identity-equality map filter, `Delete`'s identity-membership criterion, or a
parsed batch-wide target filter (kept as its source text). -/
inductive FilterSpec where
  | null
  | idEq (field : String) (id : Value)
  | idIn (field : String) (ids : List Value)
  | target (src : String)
deriving DecidableEq, Repr

/-- A statement as handed to the driver: kind, table, input data and filter
for DML, rendered text plus bound values for DDL. -/
inductive StmtReq where
  | dml (kind : StmtKind) (table : String) (data : List (String × Value))
      (flt : FilterSpec)
  | ddl (text : String) (args : List Value)
deriving DecidableEq, Repr

/-- Oracles for the external collaborators: one field per fallible step of
sql.go.  `none` / `.ok` means that step succeeds. -/
structure Env where
  isMysql : Bool
  setModeErr : Option String
  beginErr : Option String
  commitErr : Option String
  renderErr : StmtReq → Option String
  execErr : StmtReq → Option String
  indexAttached : Bool
  indexErr : Option String
  indexRemoveErr : Option String
  parseFilter : String → Except String String
  fromMapErr : String → Value → Option String
  initErr : Option String
  queryRes : StmtReq → Except String Bool
  listAllTables : Except String (List String)
  rowsErr : Option String
  refreshFn : String → Except String Collection
  toNativeType : FType → Nat → Except String String
  toFieldName : String → String
  toTableName : String → String
  pkIntCol : String → String
  pkStrCol : String → String

/-- The backend's observable state: the statements durably applied to the
store, the schema cache (`collectionCache`), and instrumentation counting how
often each refresh entry point ran (so "no refresh was triggered" is a
provable statement). -/
structure BackendState where
  committed : List StmtReq
  cache : List (String × Collection)
  refreshAllCount : Nat
  refreshOneCount : Nat

/-- `dal.CollectionNotFound` (an error value of the dal package, not under
src/; its text is opaque to every claim). -/
def CollectionNotFound : String := "Collection not found"

/-- `getCollectionFromCache` (sql.go:751): plain cache lookup, no refresh. -/
def getCollectionFromCache (st : BackendState) (name : String) :
    Except String Collection :=
  match st.cache.find? (fun p => p.1 == name) with
  | some p => .ok p.2
  | none => .error CollectionNotFound

/-- Go map assignment `m[k] = v` on an association list. -/
def setKV (m : List (String × Value)) (k : String) (v : Value) :
    List (String × Value) :=
  if m.any (fun p => p.1 == k) then
    m.map (fun p => if p.1 == k then (k, v) else p)
  else m ++ [(k, v)]

/-- The `Insert` per-record conversion loop (sql.go:159): convert every
supplied field value through `Collection.ConvertValue`, stopping at the
first failure. -/
def convertFields (coll : Collection) :
    List (String × Value) → Except String (List (String × Value))
  | [] => .ok []
  | (k, v) :: rest =>
    match coll.ConvertValue k v with
    | .error e => .error e
    | .ok cv =>
      match convertFields coll rest with
      | .error e => .error e
      | .ok tail => .ok ((k, cv) :: tail)

/-- The `InputData` an `Insert` statement carries for one record
(sql.go:159 and sql.go:170): converted field values, then the converted
identity value when `record.ID` is nonempty. -/
def buildInsertData (coll : Collection) (r : Record) :
    Except String (List (String × Value)) :=
  match convertFields coll r.Fields with
  | .error e => .error e
  | .ok data =>
    if r.ID = "" then .ok data
    else
      match coll.ConvertValue coll.IdentityField (.vStr r.ID) with
      | .error e => .error e
      | .ok v => .ok (setKV data coll.IdentityField v)

/-- The `Insert` record loop (sql.go:153): per record build the input data,
render and execute; the first failure aborts with that error, otherwise the
statements executed inside the transaction accumulate. -/
def insertLoop (env : Env) (coll : Collection) :
    List Record → List StmtReq → Except String (List StmtReq)
  | [], acc => .ok acc
  | r :: rest, acc =>
    match buildInsertData coll r with
    | .error e => .error e
    | .ok data =>
      let req := StmtReq.dml .insert coll.Name data .null
      match env.renderErr req with
      | some e => .error e
      | none =>
        match env.execErr req with
        | some e => .error e
        | none => insertLoop env coll rest (acc ++ [req])

/-- `SqlBackend.Insert` (sql.go:139). -/
def Insert (env : Env) (st : BackendState) (name : String)
    (recordset : RecordSet) : Except String Unit × BackendState :=
  match getCollectionFromCache st name with
  | .error e => (.error e, st)
  | .ok coll =>
    match env.beginErr with
    | some e => (.error e, st)
    | none =>
      match (if env.isMysql then env.setModeErr else none) with
      | some e => (.error e, st)
      | none =>
        match insertLoop env coll recordset.Records [] with
        | .error e => (.error e, st)
        | .ok txLog =>
          match env.commitErr with
          | some e => (.error e, st)
          | none =>
            let st' := { st with committed := st.committed ++ txLog }
            if env.indexAttached then
              match env.indexErr with
              | some e => (.error e, st')
              | none => (.ok (), st')
            else (.ok (), st')

/-- The per-record update filter (sql.go:307): a record with an empty ID
falls back to the batch-wide target filter and is a hard error without one;
otherwise an identity-equality filter is built for it. -/
def updateRecordFilter (env : Env) (coll : Collection) (tgt : Option String)
    (r : Record) : Except String FilterSpec :=
  if r.ID = "" then
    match tgt with
    | some tf => .ok (.target tf)
    | none => .error "Update must target at least one record"
  else
    match env.fromMapErr coll.IdentityField (.vStr r.ID) with
    | some e => .error e
    | none => .ok (.idEq coll.IdentityField (.vStr r.ID))

/-- The `InputData` an `Update` statement carries for one record
(sql.go:327): every non-identity field value of the record, unchanged. -/
def updateInputData (coll : Collection) (r : Record) : List (String × Value) :=
  r.Fields.filter (fun kv => kv.1 != coll.IdentityField)

/-- The `Update` record loop (sql.go:298). -/
def updateLoop (env : Env) (coll : Collection) (tgt : Option String) :
    List Record → List StmtReq → Except String (List StmtReq)
  | [], acc => .ok acc
  | r :: rest, acc =>
    match updateRecordFilter env coll tgt r with
    | .error e => .error e
    | .ok rf =>
      let req := StmtReq.dml .update coll.Name (updateInputData coll r) rf
      match env.renderErr req with
      | some e => .error e
      | none =>
        match env.execErr req with
        | some e => .error e
        | none => updateLoop env coll tgt rest (acc ++ [req])

/-- `SqlBackend.Update` (sql.go:284): the batch-wide target filter (first
element of `target`, if any) is parsed before anything else. -/
def Update (env : Env) (st : BackendState) (name : String)
    (recordset : RecordSet) (target : List String) :
    Except String Unit × BackendState :=
  match (match target with
         | [] => (Except.ok Option.none : Except String (Option String))
         | t :: _ => (env.parseFilter t).map Option.some) with
  | .error e => (.error e, st)
  | .ok tgt =>
    match getCollectionFromCache st name with
    | .error e => (.error e, st)
    | .ok coll =>
      match env.beginErr with
      | some e => (.error e, st)
      | none =>
        match updateLoop env coll tgt recordset.Records [] with
        | .error e => (.error e, st)
        | .ok txLog =>
          match env.commitErr with
          | some e => (.error e, st)
          | none =>
            let st' := { st with committed := st.committed ++ txLog }
            if env.indexAttached then
              match env.indexErr with
              | some e => (.error e, st')
              | none => (.ok (), st')
            else (.ok (), st')

/-- `SqlBackend.Delete` (sql.go:367): one delete statement whose filter
matches the identity field against the id set, in one transaction; on commit
the indexer (when attached) removes the same ids. -/
def Delete (env : Env) (st : BackendState) (name : String) (ids : List Value) :
    Except String Unit × BackendState :=
  match getCollectionFromCache st name with
  | .error e => (.error e, st)
  | .ok coll =>
    match env.beginErr with
    | some e => (.error e, st)
    | none =>
      let req := StmtReq.dml .delete coll.Name [] (.idIn coll.IdentityField ids)
      match env.renderErr req with
      | some e => (.error e, st)
      | none =>
        match env.execErr req with
        | some e => (.error e, st)
        | none =>
          match env.commitErr with
          | some e => (.error e, st)
          | none =>
            let st' := { st with committed := st.committed ++ [req] }
            if env.indexAttached then
              match env.indexRemoveErr with
              | some e => (.error e, st')
              | none => (.ok (), st')
            else (.ok (), st')

/-- `SqlBackend.Exists` (sql.go:215): the nested happy path returns row
presence; falling out of any `if` returns `false`. -/
def ExistsOp (env : Env) (st : BackendState) (name : String) (id : Value) :
    Bool :=
  match getCollectionFromCache st name with
  | .error _ => false
  | .ok coll =>
    match env.beginErr with
    | some _ => false
    | none =>
      match env.fromMapErr coll.IdentityField id with
      | some _ => false
      | none =>
        match env.initErr with
        | some _ => false
        | none =>
          let req := StmtReq.dml .select coll.Name []
            (.idEq coll.IdentityField id)
          match env.renderErr req with
          | some _ => false
          | none =>
            match env.queryRes req with
            | .error _ => false
            | .ok hasRow => hasRow

/-- Go map assignment on the schema cache. -/
def setCacheEntry (cache : List (String × Collection)) (k : String)
    (c : Collection) : List (String × Collection) :=
  if cache.any (fun p => p.1 == k) then
    cache.map (fun p => if p.1 == k then (k, c) else p)
  else cache ++ [(k, c)]

/-- `refreshCollection` (sql.go:734): introspect one table and, only when
the result has at least one field, swap it into the cache under the
collection's own name. -/
def refreshCollection (env : Env) (st : BackendState) (name : String) :
    Except String Unit × BackendState :=
  let st := { st with refreshOneCount := st.refreshOneCount + 1 }
  match env.refreshFn name with
  | .error e => (.error e, st)
  | .ok coll =>
    if coll.Fields.length > 0 then
      (.ok (), { st with cache := setCacheEntry st.cache coll.Name coll })
    else (.ok (), st)

/-- `refreshAllCollections` (sql.go:695): list the live tables, refresh each
(per-table errors are only logged, sql.go:708), then purge every cached name
the list-all query did not return. -/
def refreshAllCollections (env : Env) (st : BackendState) :
    Except String Unit × BackendState :=
  let st := { st with refreshAllCount := st.refreshAllCount + 1 }
  match env.listAllTables with
  | .error e => (.error e, st)
  | .ok tables =>
    let st := tables.foldl (fun s t => (refreshCollection env s t).2) st
    let st := { st with cache := st.cache.filter (fun p => tables.contains p.1) }
    match env.rowsErr with
    | some e => (.error e, st)
    | none => (.ok (), st)

/-- `SqlBackend.GetCollection` (sql.go:537): refresh this one name, then read
the cache. -/
def GetCollection (env : Env) (st : BackendState) (name : String) :
    Except String Collection × BackendState :=
  match refreshCollection env st name with
  | (.error e, st') => (.error e, st')
  | (.ok _, st') =>
    match getCollectionFromCache st' name with
    | .ok c => (.ok c, st')
    | .error e => (.error e, st')

/-- `SqlBackend.ListCollections` (sql.go:414): refresh everything, then list
the cached names. -/
def ListCollections (env : Env) (st : BackendState) :
    Except String (List String) × BackendState :=
  match refreshAllCollections env st with
  | (.ok _, st') => (.ok (st'.cache.map (fun p => p.1)), st')
  | (.error e, st') => (.error e, st')

/-- One column definition of the `CREATE TABLE` rendering (sql.go:475): the
type-mapped column, then ` NOT NULL`, ` UNIQUE` and ` DEFAULT ?` (with the
default value joining the bound arguments) exactly as declared. -/
def columnDef (env : Env) (f : Field) : Except String (String × List Value) :=
  match env.toNativeType f.Ftype f.Length with
  | .error e => .error e
  | .ok nativeType =>
    let d := env.toFieldName f.Name ++ " " ++ nativeType
    let d := if f.Required then d ++ " NOT NULL" else d
    let d := if f.Unique then d ++ " UNIQUE" else d
    match f.DefaultValue with
    | some v => .ok (d ++ " DEFAULT ?", [v])
    | none => .ok (d, [])

/-- The field loop of `CreateCollection` (sql.go:475): column definitions in
declaration order, bound default values in the same order. -/
def columnsLoop (env : Env) : List Field → Except String (List String × List Value)
  | [] => .ok ([], [])
  | f :: rest =>
    match columnDef env f with
    | .error e => .error e
    | .ok (d, vs) =>
      match columnsLoop env rest with
      | .error e => .error e
      | .ok (ds, vss) => .ok (d :: ds, vs ++ vss)

/-- The primary-key column (sql.go:466): the string format for a string
identity type, the integer format for every other identity type. -/
def pkColumn (env : Env) (d : Collection) : String :=
  if d.IdentityFieldType = StringType then
    env.pkStrCol (env.toFieldName d.IdentityField)
  else env.pkIntCol (env.toFieldName d.IdentityField)

/-- The full `CREATE TABLE` rendering of `CreateCollection` (sql.go:461):
primary-key column first, then one column per declared field. -/
def createTableQuery (env : Env) (d : Collection) :
    Except String (String × List Value) :=
  match columnsLoop env d.Fields with
  | .error e => .error e
  | .ok (cols, vals) =>
    let fields := (if d.IdentityField ≠ "" then [pkColumn env d] else []) ++ cols
    .ok ("CREATE TABLE " ++ env.toTableName d.Name ++ " (" ++
      String.intercalate ", " fields ++ ")", vals)

/-- `SqlBackend.CreateCollection` (sql.go:422): default an empty identity
field name, render the DDL, execute it in a transaction, and (deferred, so on
the commit path whether or not the commit succeeds) refresh the schema
cache.  The Go code mutates `*definition`; the mutated definition is the
third component. -/
def CreateCollection (env : Env) (st : BackendState) (definition : Collection) :
    Except String Unit × BackendState × Collection :=
  let d := if definition.IdentityField = "" then
    { definition with IdentityField := DefaultIdentityField } else definition
  match createTableQuery env d with
  | .error e => (.error e, st, d)
  | .ok (q, vals) =>
    match env.beginErr with
    | some e => (.error e, st, d)
    | none =>
      let req := StmtReq.ddl q vals
      match env.execErr req with
      | some e => (.error e, st, d)
      | none =>
        match env.commitErr with
        | some e => (.error e, (refreshAllCollections env st).2, d)
        | none =>
          let st' := { st with committed := st.committed ++ [req] }
          (.ok (), (refreshAllCollections env st').2, d)

/-! ## Spec-side statements of the diff ordering

These two definitions follow the wording of the spec (§4.1): collection-level
deltas first — name, identity field name, identity field type, in that
order — then, per field of `desired` in declaration order, either the
pairwise field diff or exactly one "is missing" delta.  The ordering claim is
settled by comparing `Collection.Diff` against this decomposition. -/

/-- The collection-level deltas, in the order the spec states. -/
def collectionLevelDeltas (self actual : Collection) : List SchemaDelta :=
  (if self.Name ≠ actual.Name then
    [⟨.CollectionDelta, "names do not match", self.Name, "",
      some (.vStr self.Name), some (.vStr actual.Name)⟩] else [])
  ++ (if self.IdentityField ≠ actual.IdentityField then
    [⟨.CollectionDelta, "does not match", self.Name, "IdentityField",
      some (.vStr self.IdentityField), some (.vStr actual.IdentityField)⟩] else [])
  ++ (if self.IdentityFieldType ≠ actual.IdentityFieldType then
    [⟨.CollectionDelta, "does not match", self.Name, "IdentityFieldType",
      some (.vStr self.IdentityFieldType), some (.vStr actual.IdentityFieldType)⟩]
    else [])

/-- One desired field's contribution: the pairwise diff when `actual` has the
field, exactly one "is missing" delta (and no field-level diffing) when it
does not. -/
def fieldDeltasFor (actual : Collection) (myField : Field) : List SchemaDelta :=
  match actual.GetField myField.Name with
  | some theirField => myField.Diff theirField
  | none => [⟨.FieldDelta, "is missing", myField.Name, "", none, none⟩]

/-! ## Concrete fixtures for witnesses and counterexamples -/

/-- An identity conversion rule for fixture fields. -/
def convOk : Value → Except String Value := fun v => .ok v

/-- Fixture field `id`. -/
def fId : Field := ⟨"id", IntType, 0, false, false, true, false, none, convOk⟩

/-- Fixture field `name`. -/
def fName : Field := ⟨"name", StringType, 0, true, false, false, false, none, convOk⟩

/-- Fixture field `age`. -/
def fAge : Field := ⟨"age", IntType, 0, false, true, false, false, some (.vInt 0), convOk⟩

/-- Fixture collection `widgets`. -/
def collW : Collection := ⟨"widgets", [fId, fName, fAge], "id", IntType⟩

/-- A backend state whose cache holds `widgets` and whose store log is
empty. -/
def stW : BackendState := ⟨[], [("widgets", collW)], 0, 0⟩

/-- An environment in which every external step succeeds. -/
def okEnv : Env :=
  { isMysql := false
    setModeErr := none
    beginErr := none
    commitErr := none
    renderErr := fun _ => none
    execErr := fun _ => none
    indexAttached := false
    indexErr := none
    indexRemoveErr := none
    parseFilter := fun s => .ok s
    fromMapErr := fun _ _ => none
    initErr := none
    queryRes := fun _ => .ok true
    listAllTables := .ok ["widgets"]
    rowsErr := none
    refreshFn := fun n => .ok ⟨n, [fName], "id", IntType⟩
    toNativeType := fun t _ => .ok t
    toFieldName := fun s => s
    toTableName := fun s => s
    pkIntCol := fun s => s ++ " INTEGER PRIMARY KEY"
    pkStrCol := fun s => s ++ " TEXT PRIMARY KEY" }

/-! ## Diff engine: reflexivity, purity and ordering -/

/-- Modelled field-level diff of a field against itself yields nothing. -/
theorem Field.diff_self (f : Field) : f.Diff f = [] := by
  simp [Field.Diff]

/-- In a list of fields with pairwise-distinct names, the linear scan finds
each member itself. -/
theorem find_name_self : ∀ (l : List Field),
    l.Pairwise (fun a b => a.Name ≠ b.Name) →
    ∀ f ∈ l, l.find? (fun g => g.Name == f.Name) = some f
  | [], _, f, hf => absurd hf (List.not_mem_nil f)
  | g :: rest, hnd, f, hf => by
    rcases List.mem_cons.mp hf with heq | hf2
    · subst heq
      simp [List.find?]
    · have hg := List.pairwise_cons.mp hnd
      have hne : (g.Name == f.Name) = false := by
        simp only [beq_eq_false_iff_ne, ne_eq]
        exact hg.1 f hf2
      simp only [List.find?, hne]
      exact find_name_self rest hg.2 f hf2

/-- Under the field-name uniqueness invariant, `GetField` returns each
declared field itself. -/
theorem getField_self (c : Collection)
    (h : c.Fields.Pairwise (fun a b => a.Name ≠ b.Name)) :
    ∀ f ∈ c.Fields, c.GetField f.Name = some f :=
  fun f hf => find_name_self c.Fields h f hf

/-- The field loop of `Diff` contributes nothing when every field finds
itself in `actual`. -/
theorem diff_loop_self (c : Collection) (l : List Field)
    (h : ∀ f ∈ l, c.GetField f.Name = some f) :
    ∀ acc : List SchemaDelta,
    l.foldl (fun acc myField =>
      match c.GetField myField.Name with
      | some theirField => acc ++ myField.Diff theirField
      | none => acc ++ [⟨.FieldDelta, "is missing", myField.Name, "", none, none⟩]) acc
      = acc := by
  induction l with
  | nil => intro acc; rfl
  | cons f rest ih =>
    intro acc
    have hf : c.GetField f.Name = some f := h f (by simp)
    simp only [List.foldl_cons, hf, Field.diff_self, List.append_nil]
    exact ih (fun f2 hf2 => h f2 (by simp [hf2])) acc

/-- Claim C3: for every Collection C (whose field names are unique, the
data-model invariant), `Diff(C, C)` yields no deltas, and the
state-passing translation of `Diff` returns both input collections
unchanged (the Go code never writes through either pointer). -/
theorem diff_refl_no_mutation (c : Collection)
    (h : c.Fields.Pairwise (fun a b => a.Name ≠ b.Name)) :
    c.Diff c = [] ∧ c.DiffST c = ([], c, c) := by
  have hd : c.Diff c = [] := by
    unfold Collection.Diff
    simp only [ne_eq, not_true_eq_false, if_false, ite_self]
    exact diff_loop_self c c.Fields (getField_self c h) []
  exact ⟨hd, by rw [Collection.DiffST, hd]⟩

/-- Witness for C3 at the concrete collection `collW`. -/
theorem diff_refl_no_mutation_witness :
    collW.Diff collW = [] ∧ collW.DiffST collW = ([], collW, collW) :=
  diff_refl_no_mutation collW (by
    simp [collW, fId, fName, fAge, List.pairwise_cons])

/-- Folding an accumulate-append function is appending the flat map. -/
theorem foldl_append_flatMap (g : Field → List SchemaDelta) :
    ∀ (l : List Field) (acc : List SchemaDelta),
      l.foldl (fun a x => a ++ g x) acc = acc ++ l.flatMap g
  | [], acc => by simp
  | x :: rest, acc => by
    simp only [List.foldl_cons, List.flatMap_cons]
    rw [foldl_append_flatMap g rest (acc ++ g x), List.append_assoc]

/-- The code's `Diff` equals the spec-side decomposition. -/
theorem diff_decomposition (self actual : Collection) :
    self.Diff actual =
      collectionLevelDeltas self actual
        ++ self.Fields.flatMap (fieldDeltasFor actual) := by
  unfold Collection.Diff
  have hfun : (fun (acc : List SchemaDelta) (myField : Field) =>
      match actual.GetField myField.Name with
      | some theirField => acc ++ myField.Diff theirField
      | none => acc ++ [⟨.FieldDelta, "is missing", myField.Name, "", none, none⟩])
      = fun acc myField => acc ++ fieldDeltasFor actual myField := by
    funext acc myField
    unfold fieldDeltasFor
    cases hx : actual.GetField myField.Name <;> simp
  rw [hfun, foldl_append_flatMap (fieldDeltasFor actual) self.Fields]
  unfold collectionLevelDeltas
  split_ifs <;> simp

/-- Claim C4: `Diff` emits the collection-level deltas first (name, identity
field name, identity field type, in that order), then the field-level deltas
in the order fields are declared in `desired`; a field present in `desired`
but absent in `actual` contributes exactly one "is missing" delta and is not
further field-diffed. -/
theorem diff_order_and_missing (self actual : Collection) :
    self.Diff actual =
      collectionLevelDeltas self actual
        ++ self.Fields.flatMap (fieldDeltasFor actual) ∧
    ∀ f : Field, actual.GetField f.Name = none →
      fieldDeltasFor actual f
        = [⟨.FieldDelta, "is missing", f.Name, "", none, none⟩] :=
  ⟨diff_decomposition self actual, fun f hf => by
    unfold fieldDeltasFor
    rw [hf]⟩

/-! ## Pagination -/

/-- Claim C5 (amended): when the `IndexPage` supplies no positive
`TotalPages`, populating computes `TotalPages = ceil(ResultCount / f.Limit)`
(for nonnegative result count and positive filter limit) and
`Page = ceil((f.Offset + 1) / page.Limit)` (for positive page limit). -/
theorem populate_pagination_amended (rs : RecordSet) (f : Filter) (page : IndexPage)
    (hnp : ¬ page.TotalPages > 0) (hrc : page.TotalResults ≥ 0)
    (hl : f.Limit > 0) (hpl : page.Limit > 0) :
    (PopulateRecordSetPageDetails rs f page).TotalPages
        = mathCeilDiv page.TotalResults f.Limit ∧
    (PopulateRecordSetPageDetails rs f page).Page
        = mathCeilDiv (f.Offset + 1) page.Limit := by
  simp only [PopulateRecordSetPageDetails, if_neg hnp]
  rw [if_pos (show page.TotalResults ≥ 0 ∧ f.Limit > 0 from ⟨hrc, hl⟩), if_pos hpl]
  constructor
  · split_ifs <;> rfl
  · rfl

/-- Witness for C5 at the claim's concrete instance: `ResultCount = 101`,
`Limit = 20`, `Offset = 40` give `TotalPages = 6` and `Page = 3`. -/
theorem populate_pagination_amended_witness :
    (PopulateRecordSetPageDetails ⟨[], 0, 0, 0, 0⟩ ⟨20, 40⟩
      ⟨0, 0, 20, 40, 101⟩).TotalPages = 6 ∧
    (PopulateRecordSetPageDetails ⟨[], 0, 0, 0, 0⟩ ⟨20, 40⟩
      ⟨0, 0, 20, 40, 101⟩).Page = 3 := by
  have h := populate_pagination_amended ⟨[], 0, 0, 0, 0⟩ ⟨20, 40⟩ ⟨0, 0, 20, 40, 101⟩
    (by decide) (by decide) (by decide) (by decide)
  have h6 : mathCeilDiv 101 20 = 6 := by
    rw [mathCeilDiv, Int.ceil_eq_iff]; norm_num
  have h3 : mathCeilDiv (40 + 1) 20 = 3 := by
    rw [mathCeilDiv, Int.ceil_eq_iff]; norm_num
  exact ⟨h.1.trans h6, h.2.trans h3⟩

/-- Counterexample to C5 as stated: when the caller supplies a positive
`page.TotalPages` (here 1), the populated `TotalPages` is that supplied value
even though `ResultCount` (101) and the page size (20) are both positive and
`ceil(101/20) = 6 ≠ 1`. -/
theorem populate_pagination_counterexample :
    0 < (PopulateRecordSetPageDetails ⟨[], 0, 0, 0, 0⟩ ⟨20, 40⟩
      ⟨0, 1, 20, 40, 101⟩).ResultCount ∧
    0 < (PopulateRecordSetPageDetails ⟨[], 0, 0, 0, 0⟩ ⟨20, 40⟩
      ⟨0, 1, 20, 40, 101⟩).RecordsPerPage ∧
    (PopulateRecordSetPageDetails ⟨[], 0, 0, 0, 0⟩ ⟨20, 40⟩
      ⟨0, 1, 20, 40, 101⟩).TotalPages
      ≠ mathCeilDiv
        (PopulateRecordSetPageDetails ⟨[], 0, 0, 0, 0⟩ ⟨20, 40⟩
          ⟨0, 1, 20, 40, 101⟩).ResultCount
        (PopulateRecordSetPageDetails ⟨[], 0, 0, 0, 0⟩ ⟨20, 40⟩
          ⟨0, 1, 20, 40, 101⟩).RecordsPerPage := by
  refine ⟨by decide, by decide, ?_⟩
  have h1 : (PopulateRecordSetPageDetails ⟨[], 0, 0, 0, 0⟩ ⟨20, 40⟩
      ⟨0, 1, 20, 40, 101⟩).TotalPages = 1 := by decide
  have hrc : (PopulateRecordSetPageDetails ⟨[], 0, 0, 0, 0⟩ ⟨20, 40⟩
      ⟨0, 1, 20, 40, 101⟩).ResultCount = 101 := by decide
  have hrp : (PopulateRecordSetPageDetails ⟨[], 0, 0, 0, 0⟩ ⟨20, 40⟩
      ⟨0, 1, 20, 40, 101⟩).RecordsPerPage = 20 := by decide
  rw [h1, hrc, hrp]
  have h6 : mathCeilDiv 101 20 = 6 := by
    rw [mathCeilDiv, Int.ceil_eq_iff]; norm_num
  rw [h6]
  decide

/-! ## Backend engine: transactional writes -/

/-- Any failure inside the `Insert` record loop (conversion, rendering or
execution) returns that error and leaves the backend state — in particular
the durable statement log — exactly as it was (the rollback path). -/
theorem insert_loop_error_rollback (env : Env) (st : BackendState) (name : String)
    (recordset : RecordSet) (coll : Collection) (e : String)
    (hc : getCollectionFromCache st name = .ok coll)
    (hb : env.beginErr = none)
    (hm : (if env.isMysql then env.setModeErr else none) = none)
    (hloop : insertLoop env coll recordset.Records [] = .error e) :
    Insert env st name recordset = (.error e, st) := by
  unfold Insert
  simp only [hc, hb, hm, hloop]

/-- Claim C2: an `Insert` batch is atomic — when any record of the batch
fails (conversion, rendering or execution, i.e. the record loop returns an
error), the whole operation returns that causing error and the store state
is unchanged: none of the batch's statements is applied. -/
theorem insert_batch_atomic (env : Env) (st : BackendState) (name : String)
    (recordset : RecordSet) (coll : Collection) (e : String)
    (hc : getCollectionFromCache st name = .ok coll)
    (hb : env.beginErr = none)
    (hm : (if env.isMysql then env.setModeErr else none) = none)
    (hloop : insertLoop env coll recordset.Records [] = .error e) :
    Insert env st name recordset = (.error e, st) :=
  insert_loop_error_rollback env st name recordset coll e hc hb hm hloop

/-- A record whose second field name is unknown to the collection. -/
def rBad : Record := ⟨"", [("bogus", .vInt 1)]⟩

/-- A batch of three records whose second fails conversion. -/
def rsBad : RecordSet :=
  ⟨[⟨"", [("name", .vStr "a")]⟩, rBad, ⟨"", [("name", .vStr "c")]⟩], 0, 0, 0, 0⟩

/-- Witness for C2: a batch of 3 records whose 2nd fails conversion returns
the conversion error and leaves the store with 0 of the 3 records
(`stW.committed = []` before and after). -/
theorem insert_batch_atomic_witness :
    Insert okEnv stW "widgets" rsBad = (.error "Unknown field bogus", stW) :=
  insert_batch_atomic okEnv stW "widgets" rsBad collW "Unknown field bogus"
    rfl rfl rfl rfl

/-- With a well-behaved environment, the update loop without a batch-wide
target filter fails on the first identity-less record. -/
theorem updateLoop_no_target (env : Env) (coll : Collection)
    (hmap : ∀ s v, env.fromMapErr s v = none)
    (hrender : ∀ q, env.renderErr q = none)
    (hexec : ∀ q, env.execErr q = none) :
    ∀ (l : List Record) (acc : List StmtReq), (∃ r ∈ l, r.ID = "") →
      updateLoop env coll none l acc = .error "Update must target at least one record"
  | [], acc, hex => absurd hex (by simp)
  | r :: rest, acc, hex => by
    unfold updateLoop updateRecordFilter
    by_cases hr : r.ID = ""
    · rw [if_pos hr]
    · have hrest : ∃ r2 ∈ rest, r2.ID = "" := by
        rcases hex with ⟨r2, hmem, hid⟩
        rcases List.mem_cons.mp hmem with heq | hm2
        · exact absurd (heq ▸ hid) hr
        · exact ⟨r2, hm2, hid⟩
      rw [if_neg hr]
      simp only [hmap, hrender, hexec]
      exact updateLoop_no_target env coll hmap hrender hexec rest _ hrest

/-- Claim C6: an `Update` whose batch carries a record without an identity
value and to which no batch-wide target filter was supplied returns the
"must target at least one record" error, and the store state is unchanged —
no statement takes effect. -/
theorem update_no_identity_no_target (env : Env) (st : BackendState) (name : String)
    (recordset : RecordSet) (coll : Collection)
    (hc : getCollectionFromCache st name = .ok coll)
    (hb : env.beginErr = none)
    (hmap : ∀ s v, env.fromMapErr s v = none)
    (hrender : ∀ q, env.renderErr q = none)
    (hexec : ∀ q, env.execErr q = none)
    (hid : ∃ r ∈ recordset.Records, r.ID = "") :
    Update env st name recordset [] =
      (.error "Update must target at least one record", st) := by
  unfold Update
  simp only [hc, hb,
    updateLoop_no_target env coll hmap hrender hexec recordset.Records [] hid]

/-- A single-record batch whose record has no identity value. -/
def rsNoId : RecordSet := ⟨[⟨"", [("name", .vStr "x")]⟩], 0, 0, 0, 0⟩

/-- Witness for C6 at a concrete identity-less record. -/
theorem update_no_identity_no_target_witness :
    Update okEnv stW "widgets" rsNoId [] =
      (.error "Update must target at least one record", stW) :=
  update_no_identity_no_target okEnv stW "widgets" rsNoId collW rfl rfl
    (fun s v => rfl) (fun q => rfl) (fun q => rfl)
    ⟨⟨"", [("name", .vStr "x")]⟩, by simp [rsNoId], rfl⟩

/-- Claim C7: `Exists` returns `true` exactly when the collection is cached
and every internal step (transaction begin, filter construction, generator
setup, rendering, query) succeeds and a row is present; any internal failure
yields `false`, never an error (the return type carries no error at all). -/
theorem exists_true_iff (env : Env) (st : BackendState) (name : String) (id : Value) :
    ExistsOp env st name id = true ↔
      ∃ coll, getCollectionFromCache st name = .ok coll ∧
        env.beginErr = none ∧
        env.fromMapErr coll.IdentityField id = none ∧
        env.initErr = none ∧
        env.renderErr (StmtReq.dml .select coll.Name []
          (.idEq coll.IdentityField id)) = none ∧
        env.queryRes (StmtReq.dml .select coll.Name []
          (.idEq coll.IdentityField id)) = .ok true := by
  unfold ExistsOp
  cases hc : getCollectionFromCache st name with
  | error e => simp [hc]
  | ok coll =>
    simp only [hc]
    cases hb : env.beginErr with
    | some e => simp [hb]
    | none =>
      cases hm : env.fromMapErr coll.IdentityField id with
      | some e => simp [hm]
      | none =>
        cases hi : env.initErr with
        | some e => simp [hi]
        | none =>
          cases hr : env.renderErr (StmtReq.dml .select coll.Name []
              (.idEq coll.IdentityField id)) with
          | some e => simp [hr]
          | none =>
            cases hq : env.queryRes (StmtReq.dml .select coll.Name []
                (.idEq coll.IdentityField id)) with
            | error e => simp [hq]
            | ok hasRow => simp [hq, hm, hr]

/-! ## Schema cache lifecycle -/

/-- A single-table refresh never touches the refresh-all counter. -/
theorem refreshCollection_allCount (env : Env) (s : BackendState) (t : String) :
    (refreshCollection env s t).2.refreshAllCount = s.refreshAllCount := by
  unfold refreshCollection
  cases env.refreshFn t with
  | error e => rfl
  | ok c => by_cases hf : c.Fields.length > 0 <;> simp [hf]

/-- A single-table refresh bumps the single-refresh counter exactly once. -/
theorem refreshCollection_oneCount (env : Env) (s : BackendState) (t : String) :
    (refreshCollection env s t).2.refreshOneCount = s.refreshOneCount + 1 := by
  unfold refreshCollection
  cases env.refreshFn t with
  | error e => rfl
  | ok c => by_cases hf : c.Fields.length > 0 <;> simp [hf]

/-- A single-table refresh never touches the durable statement log. -/
theorem refreshCollection_committed (env : Env) (s : BackendState) (t : String) :
    (refreshCollection env s t).2.committed = s.committed := by
  unfold refreshCollection
  cases env.refreshFn t with
  | error e => rfl
  | ok c => by_cases hf : c.Fields.length > 0 <;> simp [hf]

/-- The per-table refresh fold preserves the refresh-all counter. -/
theorem foldl_refresh_allCount (env : Env) :
    ∀ (tables : List String) (s : BackendState),
      (tables.foldl (fun s t => (refreshCollection env s t).2) s).refreshAllCount
        = s.refreshAllCount
  | [], _ => rfl
  | t :: rest, s => by
    simp only [List.foldl_cons]
    rw [foldl_refresh_allCount env rest _, refreshCollection_allCount]

/-- The per-table refresh fold preserves the durable statement log. -/
theorem foldl_refresh_committed (env : Env) :
    ∀ (tables : List String) (s : BackendState),
      (tables.foldl (fun s t => (refreshCollection env s t).2) s).committed
        = s.committed
  | [], _ => rfl
  | t :: rest, s => by
    simp only [List.foldl_cons]
    rw [foldl_refresh_committed env rest _, refreshCollection_committed]

/-- A full refresh bumps the refresh-all counter exactly once. -/
theorem refreshAll_allCount (env : Env) (s : BackendState) :
    (refreshAllCollections env s).2.refreshAllCount = s.refreshAllCount + 1 := by
  unfold refreshAllCollections
  cases env.listAllTables with
  | error e => rfl
  | ok tables =>
    cases env.rowsErr with
    | some e => simp [foldl_refresh_allCount]
    | none => simp [foldl_refresh_allCount]

/-- A full refresh never touches the durable statement log. -/
theorem refreshAll_committed (env : Env) (s : BackendState) :
    (refreshAllCollections env s).2.committed = s.committed := by
  unfold refreshAllCollections
  cases env.listAllTables with
  | error e => rfl
  | ok tables =>
    cases env.rowsErr with
    | some e => simp [foldl_refresh_committed]
    | none => simp [foldl_refresh_committed]

/-- `GetCollection` always performs one single-table refresh before its
cache lookup. -/
theorem getCollection_oneCount (env : Env) (st : BackendState) (name : String) :
    (GetCollection env st name).2.refreshOneCount = st.refreshOneCount + 1 := by
  unfold GetCollection
  cases hrc : refreshCollection env st name with
  | mk res st2 =>
    have h2 : st2.refreshOneCount = st.refreshOneCount + 1 := by
      have h3 := refreshCollection_oneCount env st name
      rw [hrc] at h3
      exact h3
    cases res with
    | error e => simpa using h2
    | ok u =>
      cases hgc : getCollectionFromCache st2 name with
      | ok c => simp only [hgc]; simpa using h2
      | error e => simp only [hgc]; simpa using h2

/-- `ListCollections` always performs one full refresh before listing. -/
theorem listCollections_allCount (env : Env) (st : BackendState) :
    (ListCollections env st).2.refreshAllCount = st.refreshAllCount + 1 := by
  unfold ListCollections
  cases hra : refreshAllCollections env st with
  | mk res st2 =>
    have h2 : st2.refreshAllCount = st.refreshAllCount + 1 := by
      have h3 := refreshAll_allCount env st
      rw [hra] at h3
      exact h3
    cases res with
    | error e => simpa using h2
    | ok u => simpa using h2

/-- Claim C10: `Insert`, `Update` and `Delete` on a collection name absent
from the schema cache fail with `CollectionNotFound` leaving the state —
statement log, cache and refresh counters — untouched; by contrast
`GetCollection` performs a single-table refresh and `ListCollections` a full
refresh before their lookups. -/
theorem writes_absent_collection (env : Env) (st : BackendState) (name : String)
    (recordset : RecordSet) (ids : List Value) (target : List String)
    (hc : st.cache.find? (fun p => p.1 == name) = none)
    (htgt : target = [] ∨
      ∃ t rest s, target = t :: rest ∧ env.parseFilter t = .ok s) :
    Insert env st name recordset = (.error CollectionNotFound, st) ∧
    Update env st name recordset target = (.error CollectionNotFound, st) ∧
    Delete env st name ids = (.error CollectionNotFound, st) ∧
    (GetCollection env st name).2.refreshOneCount = st.refreshOneCount + 1 ∧
    (ListCollections env st).2.refreshAllCount = st.refreshAllCount + 1 := by
  have hmiss : getCollectionFromCache st name = .error CollectionNotFound := by
    unfold getCollectionFromCache
    rw [hc]
  refine ⟨?_, ?_, ?_, getCollection_oneCount env st name,
    listCollections_allCount env st⟩
  · unfold Insert
    simp only [hmiss]
  · unfold Update
    rcases htgt with rfl | ⟨t, rest, s, rfl, hparse⟩
    · simp only [hmiss]
    · simp only [hparse, Except.map, hmiss]
  · unfold Delete
    simp only [hmiss]

/-- A backend state with an empty cache and empty statement log. -/
def stEmpty : BackendState := ⟨[], [], 0, 0⟩

/-- Witness for C10 on an empty cache. -/
theorem writes_absent_collection_witness :
    Insert okEnv stEmpty "widgets" rsNoId = (.error CollectionNotFound, stEmpty) ∧
    Update okEnv stEmpty "widgets" rsNoId ["x"] = (.error CollectionNotFound, stEmpty) ∧
    Delete okEnv stEmpty "widgets" [.vStr "1"] = (.error CollectionNotFound, stEmpty) ∧
    (GetCollection okEnv stEmpty "widgets").2.refreshOneCount = 0 + 1 ∧
    (ListCollections okEnv stEmpty).2.refreshAllCount = 0 + 1 :=
  writes_absent_collection okEnv stEmpty "widgets" rsNoId [.vStr "1"] ["x"]
    rfl (Or.inr ⟨"x", [], "x", rfl, rfl⟩)

/-- A name outside the live table list never survives the pruning filter. -/
theorem find?_filtered_none (tables : List String) (name : String)
    (hnm : tables.contains name = false) (l : List (String × Collection)) :
    (l.filter (fun p => tables.contains p.1)).find? (fun p => p.1 == name) = none := by
  rw [List.find?_eq_none]
  intro x hx hbeq
  have hx2 := List.mem_filter.mp hx
  have hxn : x.1 = name := by simpa using hbeq
  rw [hxn, hnm] at hx2
  exact Bool.noConfusion hx2.2

/-- After a successful list-all query, the cache is the refreshed cache
restricted to the live table list. -/
theorem refreshAll_cache_shape (env : Env) (st : BackendState) (tables : List String)
    (henv : env.listAllTables = .ok tables) :
    (refreshAllCollections env st).2.cache =
      ((tables.foldl (fun s t => (refreshCollection env s t).2)
        { st with refreshAllCount := st.refreshAllCount + 1 }).cache).filter
        (fun p => tables.contains p.1) := by
  unfold refreshAllCollections
  simp only [henv]
  cases env.rowsErr <;> rfl

/-- Claim C8: after a table disappears from the live store, the next
`refreshAllCollections` prunes it (every surviving cache entry is a live
table name, so the dropped name is gone), and a subsequent `GetCollection`
on that name fails with `CollectionNotFound` — given that introspecting the
dropped table reports a description with no fields (modelled from the spec,
the dialect introspection functions are not under src/). -/
theorem cache_prune_getcollection (env : Env) (st : BackendState) (name : String)
    (tables : List String) (c : Collection)
    (henv : env.listAllTables = .ok tables)
    (hnm : tables.contains name = false)
    (hdrop : env.refreshFn name = .ok c) (hfields : c.Fields = []) :
    (∀ p ∈ (refreshAllCollections env st).2.cache, tables.contains p.1 = true) ∧
    getCollectionFromCache (refreshAllCollections env st).2 name
      = .error CollectionNotFound ∧
    (GetCollection env (refreshAllCollections env st).2 name).1
      = .error CollectionNotFound := by
  have hcache := refreshAll_cache_shape env st tables henv
  have hfind : (refreshAllCollections env st).2.cache.find? (fun p => p.1 == name)
      = none := by
    rw [hcache]
    exact find?_filtered_none tables name hnm _
  have hmiss : getCollectionFromCache (refreshAllCollections env st).2 name
      = .error CollectionNotFound := by
    unfold getCollectionFromCache
    rw [hfind]
  refine ⟨?_, hmiss, ?_⟩
  · intro p hp
    rw [hcache] at hp
    exact (List.mem_filter.mp hp).2
  · unfold GetCollection refreshCollection
    simp only [hdrop, hfields, List.length_nil, gt_iff_lt, lt_self_iff_false, if_false]
    have hmiss2 : getCollectionFromCache
        { (refreshAllCollections env st).2 with refreshOneCount :=
          (refreshAllCollections env st).2.refreshOneCount + 1 } name
        = .error CollectionNotFound := by
      unfold getCollectionFromCache
      rw [show ({ (refreshAllCollections env st).2 with refreshOneCount :=
          (refreshAllCollections env st).2.refreshOneCount + 1 } : BackendState).cache
          = (refreshAllCollections env st).2.cache from rfl, hfind]
    simp only [hmiss2]

/-- An environment whose live store has only table `a`; introspecting any
other table reports no fields (the dropped-table shape). -/
def envDrop : Env :=
  { okEnv with
    listAllTables := .ok ["a"]
    refreshFn := fun n =>
      if n == "a" then .ok ⟨"a", [fName], "id", IntType⟩
      else .ok ⟨n, [], "id", IntType⟩ }

/-- Witness for C8: `widgets` was cached, the live store reports only `a`,
and after the refresh `widgets` is pruned and `GetCollection` fails. -/
theorem cache_prune_getcollection_witness :
    (∀ p ∈ (refreshAllCollections envDrop stW).2.cache,
      (["a"] : List String).contains p.1 = true) ∧
    getCollectionFromCache (refreshAllCollections envDrop stW).2 "widgets"
      = .error CollectionNotFound ∧
    (GetCollection envDrop (refreshAllCollections envDrop stW).2 "widgets").1
      = .error CollectionNotFound :=
  cache_prune_getcollection envDrop stW "widgets" ["a"]
    ⟨"widgets", [], "id", IntType⟩ rfl rfl rfl rfl

/-! ## CreateCollection DDL -/

/-- One rendered column as the spec words it: the type-mapped column with
`NOT NULL`, `UNIQUE` and `DEFAULT` modifiers exactly as declared. -/
def specColumn (env : Env) (f : Field) (nt : String) : String :=
  env.toFieldName f.Name ++ " " ++ nt
    ++ (if f.Required then " NOT NULL" else "")
    ++ (if f.Unique then " UNIQUE" else "")
    ++ (if f.DefaultValue.isSome then " DEFAULT ?" else "")

/-- The code's column rendering equals the spec-side column, with the
declared default value joining the bound arguments. -/
theorem columnDef_spec (env : Env) (f : Field) (nt : String)
    (hnt : env.toNativeType f.Ftype f.Length = .ok nt) :
    columnDef env f = .ok (specColumn env f nt, f.DefaultValue.toList) := by
  unfold columnDef specColumn
  simp only [hnt]
  cases hdv : f.DefaultValue with
  | none =>
    simp only [Option.isSome_none, Bool.false_eq_true, if_false,
      String.append_empty, Option.toList_none]
    split_ifs <;> simp [String.append_empty]
  | some v =>
    simp only [Option.isSome_some, if_true, Option.toList_some]
    split_ifs <;> simp [String.append_empty]

/-- Claim C9: `CreateCollection` on a definition with an unset identity
field defaults it to the standard name before rendering; the rendered DDL
is one primary-key column (the integer primary-key format, identical to
what the standard identity type renders) followed by one column per declared
field with its modifiers exactly as declared; on successful execution and
commit the statement is applied and a full schema refresh is triggered. -/
theorem create_collection_ddl (env : Env) (st : BackendState)
    (definition : Collection) (cols : List String) (vals : List Value)
    (hid : definition.IdentityField = "")
    (htype : definition.IdentityFieldType ≠ StringType)
    (hcols : columnsLoop env definition.Fields = .ok (cols, vals))
    (hb : env.beginErr = none)
    (hexec : ∀ q, env.execErr q = none)
    (hcommit : env.commitErr = none) :
    CreateCollection env st definition =
      (.ok (), (refreshAllCollections env { st with committed := st.committed ++
          [StmtReq.ddl ("CREATE TABLE " ++ env.toTableName definition.Name ++ " (" ++
            String.intercalate ", "
              (env.pkIntCol (env.toFieldName DefaultIdentityField) :: cols) ++ ")")
            vals] }).2,
        { definition with IdentityField := DefaultIdentityField }) ∧
    (CreateCollection env st definition).2.2.IdentityField = DefaultIdentityField ∧
    (CreateCollection env st definition).2.1.committed = st.committed ++
      [StmtReq.ddl ("CREATE TABLE " ++ env.toTableName definition.Name ++ " (" ++
        String.intercalate ", "
          (env.pkIntCol (env.toFieldName DefaultIdentityField) :: cols) ++ ")") vals] ∧
    (CreateCollection env st definition).2.1.refreshAllCount = st.refreshAllCount + 1 ∧
    (∀ f nt, env.toNativeType f.Ftype f.Length = .ok nt →
      columnDef env f = .ok (specColumn env f nt, f.DefaultValue.toList)) ∧
    pkColumn env { definition with IdentityField := DefaultIdentityField }
      = env.pkIntCol (env.toFieldName DefaultIdentityField) ∧
    pkColumn env
        { definition with
          IdentityField := DefaultIdentityField
          IdentityFieldType := DefaultIdentityFieldType }
      = env.pkIntCol (env.toFieldName DefaultIdentityField) := by
  have hpk : pkColumn env { definition with IdentityField := DefaultIdentityField }
      = env.pkIntCol (env.toFieldName DefaultIdentityField) := by
    unfold pkColumn
    rw [if_neg htype]
  have hpk2 : pkColumn env
      { definition with
        IdentityField := DefaultIdentityField
        IdentityFieldType := DefaultIdentityFieldType }
      = env.pkIntCol (env.toFieldName DefaultIdentityField) := by
    unfold pkColumn
    rw [if_neg (by decide : ¬ DefaultIdentityFieldType = StringType)]
  have hquery : createTableQuery env
      { definition with IdentityField := DefaultIdentityField }
      = .ok ("CREATE TABLE " ++ env.toTableName definition.Name ++ " (" ++
          String.intercalate ", "
            (env.pkIntCol (env.toFieldName DefaultIdentityField) :: cols) ++ ")",
          vals) := by
    unfold createTableQuery
    simp only [hcols]
    rw [if_pos (by decide : DefaultIdentityField ≠ "")]
    rw [hpk]
    rfl
  have hmain : CreateCollection env st definition =
      (.ok (), (refreshAllCollections env { st with committed := st.committed ++
          [StmtReq.ddl ("CREATE TABLE " ++ env.toTableName definition.Name ++ " (" ++
            String.intercalate ", "
              (env.pkIntCol (env.toFieldName DefaultIdentityField) :: cols) ++ ")")
            vals] }).2,
        { definition with IdentityField := DefaultIdentityField }) := by
    unfold CreateCollection
    rw [if_pos hid]
    simp only [hquery, hb, hexec, hcommit]
  refine ⟨hmain, ?_, ?_, ?_, fun f nt hnt => columnDef_spec env f nt hnt, hpk, hpk2⟩
  · rw [hmain]
  · rw [hmain]
    exact refreshAll_committed env _
  · rw [hmain]
    rw [refreshAll_allCount env _]

/-- A declared collection with an unset identity field and type. -/
def collNew : Collection := ⟨"things", [fName, fAge], "", ""⟩

/-- Witness for C9: creating `collNew` renders the expected DDL, defaults
the identity field to `id`, commits the one DDL statement and triggers a
refresh. -/
theorem create_collection_ddl_witness :
    (CreateCollection okEnv stEmpty collNew).1 = .ok () ∧
    (CreateCollection okEnv stEmpty collNew).2.2.IdentityField = "id" ∧
    (CreateCollection okEnv stEmpty collNew).2.1.committed = [StmtReq.ddl
      "CREATE TABLE things (id INTEGER PRIMARY KEY, name str NOT NULL, age int UNIQUE DEFAULT ?)"
      [.vInt 0]] ∧
    (CreateCollection okEnv stEmpty collNew).2.1.refreshAllCount = 1 := by
  have h := create_collection_ddl okEnv stEmpty collNew
    ["name str NOT NULL", "age int UNIQUE DEFAULT ?"] [.vInt 0]
    rfl (by decide) rfl rfl (fun q => rfl) rfl
  exact ⟨by rw [h.1], h.2.1, h.2.2.1.trans (by decide), h.2.2.2.1⟩

/-! ## Conversion discipline of Insert and Update -/

/-- A conversion failure anywhere in the supplied fields fails the
conversion loop. -/
theorem convertFields_error_of_mem (coll : Collection) :
    ∀ (l : List (String × Value)),
      (∃ kv ∈ l, ∃ e, coll.ConvertValue kv.1 kv.2 = .error e) →
      ∃ e2, convertFields coll l = .error e2 := by
  intro l
  induction l with
  | nil => intro hex; simp at hex
  | cons kv rest ih =>
    intro hex
    obtain ⟨k, v⟩ := kv
    unfold convertFields
    cases hkv : coll.ConvertValue k v with
    | error e => exact ⟨e, by simp only [hkv]⟩
    | ok cv =>
      have hrest : ∃ kv2 ∈ rest, ∃ e, coll.ConvertValue kv2.1 kv2.2 = .error e := by
        rcases hex with ⟨kv2, hmem, e, he⟩
        rcases List.mem_cons.mp hmem with heq | hm2
        · subst heq
          exact Except.noConfusion (hkv.symm.trans he)
        · exact ⟨kv2, hm2, e, he⟩
      obtain ⟨e2, he2⟩ := ih hrest
      exact ⟨e2, by simp only [hkv, he2]⟩

/-- A conversion failure in a record's fields fails its insert-data
construction. -/
theorem buildInsertData_error_of_mem (coll : Collection) (r : Record)
    (hex : ∃ kv ∈ r.Fields, ∃ e, coll.ConvertValue kv.1 kv.2 = .error e) :
    ∃ e2, buildInsertData coll r = .error e2 := by
  obtain ⟨e2, he2⟩ := convertFields_error_of_mem coll r.Fields hex
  exact ⟨e2, by unfold buildInsertData; simp only [he2]⟩

/-- A conversion failure in any record of the batch fails the insert loop. -/
theorem insertLoop_error_of_mem (env : Env) (coll : Collection) :
    ∀ (l : List Record) (acc : List StmtReq),
      (∃ r ∈ l, ∃ kv ∈ r.Fields, ∃ e, coll.ConvertValue kv.1 kv.2 = .error e) →
      ∃ e2, insertLoop env coll l acc = .error e2 := by
  intro l
  induction l with
  | nil => intro acc hex; simp at hex
  | cons r rest ih =>
    intro acc hex
    unfold insertLoop
    cases hbd : buildInsertData coll r with
    | error e => exact ⟨e, by simp only [hbd]⟩
    | ok data =>
      rcases hex with ⟨r2, hmem, hkv⟩
      rcases List.mem_cons.mp hmem with heq | hm2
      · subst heq
        obtain ⟨e2, he2⟩ := buildInsertData_error_of_mem coll r2 hkv
        exact Except.noConfusion (hbd.symm.trans he2)
      · cases hr : env.renderErr (StmtReq.dml .insert coll.Name data .null) with
        | some e => exact ⟨e, by simp only [hbd, hr]⟩
        | none =>
          cases hx : env.execErr (StmtReq.dml .insert coll.Name data .null) with
          | some e => exact ⟨e, by simp only [hbd, hr, hx]⟩
          | none =>
            obtain ⟨e2, he2⟩ := ih (acc ++ [StmtReq.dml .insert coll.Name data .null])
              ⟨r2, hm2, hkv⟩
            exact ⟨e2, by simp only [hbd, hr, hx, he2]⟩

/-- A successful conversion loop is the pointwise `ConvertValue` image of
the supplied fields, keys preserved in order. -/
theorem convertFields_forall2 (coll : Collection) :
    ∀ (l out : List (String × Value)), convertFields coll l = .ok out →
      List.Forall₂ (fun kv kv2 => kv2.1 = kv.1 ∧ coll.ConvertValue kv.1 kv.2 = .ok kv2.2)
        l out := by
  intro l
  induction l with
  | nil =>
    intro out h
    unfold convertFields at h
    cases h
    exact List.Forall₂.nil
  | cons kv rest ih =>
    intro out h
    obtain ⟨k, v⟩ := kv
    unfold convertFields at h
    cases hkv : coll.ConvertValue k v with
    | error e => rw [hkv] at h; cases h
    | ok cv =>
      rw [hkv] at h
      cases hrest : convertFields coll rest with
      | error e => rw [hrest] at h; cases h
      | ok tail =>
        rw [hrest] at h
        cases h
        exact List.Forall₂.cons ⟨rfl, hkv⟩ (ih tail hrest)

/-- Every supplied field of a successfully converted list converts. -/
theorem convertFields_ok_all (coll : Collection) :
    ∀ (l out : List (String × Value)), convertFields coll l = .ok out →
      ∀ kv ∈ l, ∃ cv, coll.ConvertValue kv.1 kv.2 = .ok cv := by
  intro l
  induction l with
  | nil => intro out h kv hkv; simp at hkv
  | cons kv0 rest ih =>
    intro out h kv hkv
    obtain ⟨k, v⟩ := kv0
    unfold convertFields at h
    cases hc : coll.ConvertValue k v with
    | error e => rw [hc] at h; cases h
    | ok cv =>
      rw [hc] at h
      cases hrest : convertFields coll rest with
      | error e => rw [hrest] at h; cases h
      | ok tail =>
        rcases List.mem_cons.mp hkv with heq | hm2
        · subst heq; exact ⟨cv, hc⟩
        · exact ih tail hrest kv hm2

/-- Successful insert-data construction implies the field conversion loop
succeeded. -/
theorem buildInsertData_ok_convertFields (coll : Collection) (r : Record)
    (data : List (String × Value)) (h : buildInsertData coll r = .ok data) :
    ∃ out, convertFields coll r.Fields = .ok out := by
  unfold buildInsertData at h
  cases hcf : convertFields coll r.Fields with
  | error e => rw [hcf] at h; cases h
  | ok out => exact ⟨out, rfl⟩

/-- A successful insert loop built every record's insert data. -/
theorem insertLoop_ok_all (env : Env) (coll : Collection) :
    ∀ (l : List Record) (acc out : List StmtReq), insertLoop env coll l acc = .ok out →
      ∀ r ∈ l, ∃ data, buildInsertData coll r = .ok data := by
  intro l
  induction l with
  | nil => intro acc out h r hr; simp at hr
  | cons r0 rest ih =>
    intro acc out h r hr
    unfold insertLoop at h
    cases hbd : buildInsertData coll r0 with
    | error e => rw [hbd] at h; cases h
    | ok data =>
      simp only [hbd] at h
      cases hrr : env.renderErr (StmtReq.dml .insert coll.Name data .null) with
      | some e => rw [hrr] at h; exact Except.noConfusion h
      | none =>
        simp only [hrr] at h
        cases hxx : env.execErr (StmtReq.dml .insert coll.Name data .null) with
        | some e => rw [hxx] at h; exact Except.noConfusion h
        | none =>
          simp only [hxx] at h
          rcases List.mem_cons.mp hr with heq | hm2
          · subst heq; exact ⟨data, hbd⟩
          · exact ih _ out h r hm2

/-- Claim C1 (amended): for `Insert`, every supplied field value is coerced
through `ConvertValue` before being placed in the statement's input data (a
successful batch has every value converted, and the input list is the
pointwise `ConvertValue` image of the supplied fields), and a conversion
failure for any record aborts the operation with an error and an unchanged
store; for `Update`, by contrast, the statement's input data is exactly the
supplied non-identity fields unconverted — no `ConvertValue` is applied. -/
theorem insert_converts_update_not (env : Env) (st : BackendState) (name : String)
    (recordset : RecordSet) (coll : Collection)
    (hc : getCollectionFromCache st name = .ok coll) :
    ((∃ r ∈ recordset.Records, ∃ kv ∈ r.Fields, ∃ e,
        coll.ConvertValue kv.1 kv.2 = .error e) →
      env.beginErr = none → (if env.isMysql then env.setModeErr else none) = none →
      ∃ e2, Insert env st name recordset = (.error e2, st)) ∧
    ((Insert env st name recordset).1 = .ok () →
      ∀ r ∈ recordset.Records, ∀ kv ∈ r.Fields,
        ∃ cv, coll.ConvertValue kv.1 kv.2 = .ok cv) ∧
    (∀ l out, convertFields coll l = .ok out →
      List.Forall₂ (fun kv kv2 => kv2.1 = kv.1 ∧ coll.ConvertValue kv.1 kv.2 = .ok kv2.2)
        l out) ∧
    (∀ (r : Record) (kv : String × Value),
      kv ∈ updateInputData coll r ↔ kv ∈ r.Fields ∧ kv.1 ≠ coll.IdentityField) := by
  refine ⟨?_, ?_, convertFields_forall2 coll, ?_⟩
  · intro hex hb hm
    obtain ⟨e2, he2⟩ := insertLoop_error_of_mem env coll recordset.Records [] hex
    exact ⟨e2, insert_loop_error_rollback env st name recordset coll e2 hc hb hm he2⟩
  · intro hres r hr kv hkv
    unfold Insert at hres
    simp only [hc] at hres
    cases hb : env.beginErr with
    | some e => simp [hb] at hres
    | none =>
      simp only [hb] at hres
      cases hm : (if env.isMysql then env.setModeErr else none) with
      | some e => simp [hm] at hres
      | none =>
        simp only [hm] at hres
        cases hloop : insertLoop env coll recordset.Records [] with
        | error e => simp [hloop] at hres
        | ok txLog =>
          obtain ⟨data, hdata⟩ :=
            insertLoop_ok_all env coll recordset.Records [] txLog hloop r hr
          obtain ⟨out, hout⟩ := buildInsertData_ok_convertFields coll r data hdata
          exact convertFields_ok_all coll r.Fields out hout kv hkv
  · intro r kv
    unfold updateInputData
    rw [List.mem_filter]
    simp [bne_iff_ne]

/-- Witness for C1: the insert half aborts on the unknown-field record,
and the update input data of a concrete record is its raw non-identity
fields. -/
theorem insert_converts_update_not_witness :
    (∃ e2, Insert okEnv stW "widgets" ⟨[rBad], 0, 0, 0, 0⟩ = (.error e2, stW)) ∧
    (∀ kv : String × Value,
      kv ∈ updateInputData collW ⟨"r1", [("bogus", .vInt 5)]⟩ ↔
        kv ∈ [(("bogus" : String), Value.vInt 5)] ∧ kv.1 ≠ "id") := by
  have h := insert_converts_update_not okEnv stW "widgets" ⟨[rBad], 0, 0, 0, 0⟩ collW rfl
  constructor
  · exact h.1 ⟨rBad, by simp, ("bogus", .vInt 1), by simp [rBad],
      "Unknown field bogus", rfl⟩ rfl rfl
  · intro kv
    exact h.2.2.2 ⟨"r1", [("bogus", .vInt 5)]⟩ kv

/-- Counterexample to C1 as stated: `ConvertValue` rejects the value of
field `bogus`, yet `Update` places that raw value in the statement's input
data, issues and commits the statement, and returns success — no conversion
is attempted on the update path (sql.go:327 copies values verbatim). -/
theorem update_unconverted_counterexample :
    (∃ e, collW.ConvertValue "bogus" (.vInt 5) = .error e) ∧
    Update okEnv stW "widgets" ⟨[⟨"r1", [("bogus", .vInt 5)]⟩], 0, 0, 0, 0⟩ [] =
      (.ok (), { stW with committed := [StmtReq.dml .update "widgets"
        [("bogus", .vInt 5)] (.idEq "id" (.vStr "r1"))] }) :=
  ⟨⟨"Unknown field bogus", rfl⟩, rfl⟩

end Pivot
